import Mathlib

/-!
Shallow embedding of the bounded-concurrency download stage of the
s3-archiving tool (`download.go`).

The per-object goroutine body is embedded as the pure function `transfer`,
parameterised by an `Oracle` supplying the results of the remote calls
(`downloadObjectToBuffer`, `downloadObjectInParts`) and the buffer obtained
from the pool.  The orchestrator loop `Downloader` is embedded as a
small-step transition relation `Step` over `OrchState`, with the Go `select`
modelled as a nondeterministic choice among ready cases; crucially, the
`break` in the `ctx.Done()` case exits only the `select`, not the enclosing
`for` loop, and this is modelled faithfully (`Step.selectCancel` returns to
the loop).
-/

namespace S3Archive

/-- `DownloadTask` from download.go: `{Size int64, Filename string}`. -/
structure DownloadTask where
  size : Int
  filename : String
deriving DecidableEq

/-- A Go byte slice, abstracted to its length and capacity (the data content
is irrelevant to every claim). -/
structure Buffer where
  len : Nat
  cap : Nat
deriving DecidableEq

/-- `WorkFile` from download.go.  `bytes = none` models a nil `Bytes` slice,
`tempFile = ""` models the empty `TempFile` string. -/
structure WorkFile where
  size : Int
  filename : String
  tempFile : String
  bytes : Option Buffer
deriving DecidableEq

/-- `ErrorEvent` sent on the shared `fileErrCh` error channel. -/
structure ErrorEvent where
  size : Int
  filename : String
  err : String
deriving DecidableEq

/-- The two buffer-pool size classes: `bufPool32` (blocks ≤ 32 KiB) and
`bufPoolLarge`. -/
inductive PoolClass
  | pool32
  | poolLarge
deriving DecidableEq

/-- `putMemory` from download.go: restore the slice to its full capacity
(`mem = mem[:cap(mem)]`), then classify by the (restored) length. -/
def putMemory (mem : Buffer) : PoolClass × Buffer :=
  let mem2 : Buffer := { mem with len := mem.cap }
  if mem2.len ≤ 32 * 1024 then (PoolClass.pool32, mem2)
  else (PoolClass.poolLarge, mem2)

/-- The part count computed by `Downloader`: `parts := 1`, and `parts := 8`
when `task.Size > 8*1024*1024`. -/
def partCount (task : DownloadTask) : Nat :=
  if task.size > 8 * 1024 * 1024 then 8 else 1

/-- Default of the `MAX_IN_MEM` environment knob (in KiB):
`maxMemObject = EnvInt("MAX_IN_MEM", 96, ...)`. -/
def maxMemObjectDefault : Int := 96

/-- Modelled from the spec: the collaborator operations that download.go
calls but whose bodies are not part of this component.
`memDownload` stands for `downloadObjectToBuffer`, returning the byte count
written or an error; `partsDownload` stands for
`downloadObjectInParts(ctx, bucket, name, size, parts)`, which per the spec
partitions the object into exactly its `parts` argument's worth of
concurrently fetched sub-ranges and returns a temporary file path or an
error; `getBuf` stands for the `sync.Pool` `Get`, returning some available
(or freshly allocated) block. -/
structure Oracle where
  getBuf : DownloadTask → Buffer
  memDownload : DownloadTask → Except String Nat
  partsDownload : DownloadTask → Nat → Except String String

/-- The observable effects of one run of the goroutine body dispatched by
`Downloader` for one task (everything up to, but not including, the deferred
`swg.Done` calls). -/
structure TransferResult where
  files : List WorkFile
  errs : List ErrorEvent
  memGets : List PoolClass
  memPuts : List (PoolClass × Buffer)
  memReadCalls : Nat
  partsCalls : List Nat
  counterInc : Nat
deriving DecidableEq

/-- The goroutine body of `Downloader` (download.go lines 68–131), as a pure
function of the task, the part count it was dispatched with, and the oracle:
size 0 sends a bare `WorkFile`; `0 ≠ size ≤ maxMemObject*1024` downloads into
a pooled buffer, converting a read error or a short write into one
`ErrorEvent` and returning the buffer via `putMemory`; larger sizes call
`downloadObjectInParts` with the dispatched part count.  The process-wide
`DownloadedFiles` counter is incremented exactly on the fall-through
(success) paths. -/
def transfer (maxMemObject : Int) (o : Oracle) (task : DownloadTask) (parts : Nat) :
    TransferResult :=
  if task.size = 0 then
    { files := [{ size := task.size, filename := task.filename, tempFile := "", bytes := none }]
      errs := []
      memGets := []
      memPuts := []
      memReadCalls := 0
      partsCalls := []
      counterInc := 1 }
  else if task.size ≤ maxMemObject * 1024 then
    let cls : PoolClass := if task.size ≤ 32 * 1024 then PoolClass.pool32 else PoolClass.poolLarge
    let mem : Buffer := o.getBuf task
    match o.memDownload task with
    | Except.error e =>
      { files := []
        errs := [{ size := task.size, filename := task.filename
                   err := "Error downloading object " ++ task.filename ++ " to memory: " ++ e }]
        memGets := [cls]
        memPuts := [putMemory mem]
        memReadCalls := 1
        partsCalls := []
        counterInc := 0 }
    | Except.ok n =>
      if (n : Int) ≠ task.size then
        { files := []
          errs := [{ size := task.size, filename := task.filename
                     err := "Short write for object " ++ task.filename }]
          memGets := [cls]
          memPuts := [putMemory mem]
          memReadCalls := 1
          partsCalls := []
          counterInc := 0 }
      else
        { files := [{ size := task.size, filename := task.filename, tempFile := ""
                      bytes := some { mem with len := n } }]
          errs := []
          memGets := [cls]
          memPuts := []
          memReadCalls := 1
          partsCalls := []
          counterInc := 1 }
  else
    match o.partsDownload task parts with
    | Except.error e =>
      { files := []
        errs := [{ size := task.size, filename := task.filename
                   err := "Error downloading object " ++ task.filename ++ " to temporary file: " ++ e }]
        memGets := []
        memPuts := []
        memReadCalls := 0
        partsCalls := [parts]
        counterInc := 0 }
    | Except.ok p =>
      { files := [{ size := task.size, filename := task.filename, tempFile := p, bytes := none }]
        errs := []
        memGets := []
        memPuts := []
        memReadCalls := 0
        partsCalls := [parts]
        counterInc := 1 }

/-- Control position of the orchestrator's single thread: in the `for/select`
loop; blocked inside the sequential `swg.Add()` loop having acquired `got` of
the `parts` units for `task`; inside `swg.Wait()` after `tasksCh` closed; or
returned (with `doneCh` closed by the `defer`). -/
inductive Phase
  | looping
  | acquiring (task : DownloadTask) (parts : Nat) (got : Nat)
  | waiting
  | closed
deriving DecidableEq

/-- A dispatched goroutine: its task, the part count it was dispatched with,
and whether its body (including the channel send) has run; the deferred
`swg.Done()` calls run after the body. -/
structure Goroutine where
  task : DownloadTask
  parts : Nat
  bodyDone : Bool
deriving DecidableEq

/-- Global state of one run of `Downloader` together with its environment:
the buffered content of `tasksCh` (`inputs`) and whether the producer closed
it, the context cancellation flag, the `sizedwaitgroup` count (`active`),
the dispatched goroutines not yet fully released, whether `doneCh` was
closed, and the traces of sends on `doneCh` and `fileErrCh` plus the
`DownloadedFiles` counter. -/
structure OrchState where
  phase : Phase
  inputs : List DownloadTask
  inputClosed : Bool
  ctxDone : Bool
  active : Nat
  pending : List Goroutine
  doneClosed : Bool
  sent : List WorkFile
  errs : List ErrorEvent
  counter : Nat
deriving DecidableEq

/-- Units held by the orchestrator while blocked mid-`swg.Add()` loop. -/
def gotOf : Phase → Nat
  | Phase.acquiring _ _ g => g
  | _ => 0

/-- Total limiter units held by a list of dispatched goroutines. -/
def sumParts (l : List Goroutine) : Nat :=
  (l.map (fun g => g.parts)).sum

/-- The initial state of `Downloader`: just entered the loop, `tasksCh`
holding `inputs` and still open, nothing dispatched, `doneCh` open. -/
def initState (inputs : List DownloadTask) : OrchState :=
  { phase := Phase.looping
    inputs := inputs
    inputClosed := false
    ctxDone := false
    active := 0
    pending := []
    doneClosed := false
    sent := []
    errs := []
    counter := 0 }

/-- One atomic step of the `Downloader` system (orchestrator thread,
environment, or a dispatched goroutine).  The `select` is modelled as a
nondeterministic choice among its ready cases.  `selectCancel` is the
`case <-ctx.Done(): break` arm: in Go the `break` leaves only the `select`,
so the rule returns to `Phase.looping` — and no other rule is guarded on
`ctxDone`, exactly as in the source.  `addUnit` is one blocking `swg.Add()`
(the semaphore admits at most 16 units); `dispatch` is the `go func(...)`
statement once all `parts` units are held; `unitBody` runs one goroutine's
body (sends computed by `transfer`); `unitRelease` runs its deferred
`swg.Done()` calls; `closeDone` is the return through `defer close(doneCh)`
once `swg.Wait()` sees a zero count. -/
inductive Step (maxMemObject : Int) (o : Oracle) : OrchState → OrchState → Prop
  | produce (s : OrchState) (t : DownloadTask)
      (h : s.inputClosed = false) :
      Step maxMemObject o s { s with inputs := s.inputs ++ [t] }
  | closeInput (s : OrchState)
      (h : s.inputClosed = false) :
      Step maxMemObject o s { s with inputClosed := true }
  | cancel (s : OrchState)
      (h : s.ctxDone = false) :
      Step maxMemObject o s { s with ctxDone := true }
  | selectCancel (s : OrchState)
      (h1 : s.phase = Phase.looping) (h2 : s.ctxDone = true) :
      Step maxMemObject o s s
  | selectTask (s : OrchState) (t : DownloadTask) (rest : List DownloadTask)
      (h1 : s.phase = Phase.looping) (h2 : s.inputs = t :: rest) :
      Step maxMemObject o
        s { s with phase := Phase.acquiring t (partCount t) 0, inputs := rest }
  | selectClosed (s : OrchState)
      (h1 : s.phase = Phase.looping) (h2 : s.inputs = []) (h3 : s.inputClosed = true) :
      Step maxMemObject o s { s with phase := Phase.waiting }
  | addUnit (s : OrchState) (t : DownloadTask) (p g : Nat)
      (h1 : s.phase = Phase.acquiring t p g) (h2 : g < p) (h3 : s.active < 16) :
      Step maxMemObject o
        s { s with phase := Phase.acquiring t p (g + 1), active := s.active + 1 }
  | dispatch (s : OrchState) (t : DownloadTask) (p : Nat)
      (h1 : s.phase = Phase.acquiring t p p) :
      Step maxMemObject o
        s { s with phase := Phase.looping
                   pending := s.pending ++ [{ task := t, parts := p, bodyDone := false }] }
  | unitBody (s : OrchState) (l1 : List Goroutine) (g : Goroutine) (l2 : List Goroutine)
      (h1 : s.pending = l1 ++ g :: l2) (h2 : g.bodyDone = false) :
      Step maxMemObject o
        s { s with pending := l1 ++ { g with bodyDone := true } :: l2
                   sent := s.sent ++ (transfer maxMemObject o g.task g.parts).files
                   errs := s.errs ++ (transfer maxMemObject o g.task g.parts).errs
                   counter := s.counter + (transfer maxMemObject o g.task g.parts).counterInc }
  | unitRelease (s : OrchState) (l1 : List Goroutine) (g : Goroutine) (l2 : List Goroutine)
      (h1 : s.pending = l1 ++ g :: l2) (h2 : g.bodyDone = true) :
      Step maxMemObject o
        s { s with pending := l1 ++ l2, active := s.active - g.parts }
  | closeDone (s : OrchState)
      (h1 : s.phase = Phase.waiting) (h2 : s.active = 0) :
      Step maxMemObject o s { s with phase := Phase.closed, doneClosed := true }

/-- States reachable from `init` under the step relation. -/
inductive Reachable (maxMemObject : Int) (o : Oracle) (init : OrchState) : OrchState → Prop
  | refl : Reachable maxMemObject o init init
  | step {s s' : OrchState} :
      Reachable maxMemObject o init s → Step maxMemObject o s s' →
      Reachable maxMemObject o init s'

theorem sumParts_append (l1 l2 : List Goroutine) :
    sumParts (l1 ++ l2) = sumParts l1 + sumParts l2 := by
  simp [sumParts]

theorem sumParts_cons (g : Goroutine) (l : List Goroutine) :
    sumParts (g :: l) = g.parts + sumParts l := by
  simp [sumParts]

theorem partCount_pos (t : DownloadTask) : 1 ≤ partCount t := by
  unfold partCount
  split <;> omega

theorem pending_eq_nil (l : List Goroutine)
    (hp : ∀ g ∈ l, g.parts = partCount g.task) (hz : sumParts l = 0) : l = [] := by
  cases l with
  | nil => rfl
  | cons g rest =>
    rw [sumParts_cons] at hz
    have h1 := hp g (List.mem_cons_self g rest)
    have h2 := partCount_pos g.task
    omega

/-- The inductive invariant of the `Downloader` state machine: the limiter
count never exceeds the ceiling of 16 and exactly accounts for every
reserved-but-unreleased unit; every dispatched goroutine holds exactly the
part count of its task; an in-progress acquisition is for exactly the part
count and has acquired at most that many; the drain/`closed` phases occur
only after `tasksCh` is closed and emptied; `doneCh` is closed exactly in
the `closed` phase, which is only entered with a fully drained limiter. -/
structure Inv (s : OrchState) : Prop where
  ceiling : s.active ≤ 16
  conserve : s.active = gotOf s.phase + sumParts s.pending
  partsOk : ∀ g ∈ s.pending, g.parts = partCount g.task
  acqOk : ∀ t p g, s.phase = Phase.acquiring t p g → p = partCount t ∧ g ≤ p
  drainOk : s.phase = Phase.waiting ∨ s.phase = Phase.closed →
    s.inputClosed = true ∧ s.inputs = []
  closedIff : s.doneClosed = true ↔ s.phase = Phase.closed
  closedDrained : s.phase = Phase.closed → s.active = 0

theorem inv_init (inputs : List DownloadTask) : Inv (initState inputs) := by
  refine ⟨?_, ?_, ?_, ?_, ?_, ?_, ?_⟩ <;> simp [initState, gotOf, sumParts]

theorem inv_step {maxMemObject : Int} {o : Oracle} {s s' : OrchState}
    (hs : Inv s) (hstep : Step maxMemObject o s s') : Inv s' := by
  cases hstep with
  | produce t h =>
    refine ⟨hs.ceiling, hs.conserve, hs.partsOk, hs.acqOk, ?_, hs.closedIff, hs.closedDrained⟩
    intro hp
    have hc := (hs.drainOk hp).1
    rw [h] at hc
    simp at hc
  | closeInput h =>
    exact ⟨hs.ceiling, hs.conserve, hs.partsOk, hs.acqOk, fun hp => ⟨rfl, (hs.drainOk hp).2⟩,
      hs.closedIff, hs.closedDrained⟩
  | cancel h =>
    exact ⟨hs.ceiling, hs.conserve, hs.partsOk, hs.acqOk, hs.drainOk,
      hs.closedIff, hs.closedDrained⟩
  | selectCancel h1 h2 =>
    exact hs
  | selectTask t rest h1 h2 =>
    refine ⟨hs.ceiling, ?_, hs.partsOk, ?_, ?_, ?_, ?_⟩
    · show s.active = gotOf (Phase.acquiring t (partCount t) 0) + sumParts s.pending
      have hc := hs.conserve
      rw [h1] at hc
      simp only [gotOf] at hc ⊢
      omega
    · intro t' p' g' heq
      have heq' : Phase.acquiring t (partCount t) 0 = Phase.acquiring t' p' g' := heq
      injection heq' with ht hp hg
      subst ht hp hg
      exact ⟨rfl, Nat.zero_le _⟩
    · intro hp
      rcases hp with h | h
      · have h' : Phase.acquiring t (partCount t) 0 = Phase.waiting := h
        simp at h'
      · have h' : Phase.acquiring t (partCount t) 0 = Phase.closed := h
        simp at h'
    · constructor
      · intro hd
        have hc := hs.closedIff.mp hd
        rw [h1] at hc
        simp at hc
      · intro hd
        have hd' : Phase.acquiring t (partCount t) 0 = Phase.closed := hd
        simp at hd'
    · intro hc
      have hc' : Phase.acquiring t (partCount t) 0 = Phase.closed := hc
      simp at hc'
  | selectClosed h1 h2 h3 =>
    refine ⟨hs.ceiling, ?_, hs.partsOk, ?_, ?_, ?_, ?_⟩
    · show s.active = gotOf Phase.waiting + sumParts s.pending
      have hc := hs.conserve
      rw [h1] at hc
      simpa [gotOf] using hc
    · intro t' p' g' heq
      have heq' : Phase.waiting = Phase.acquiring t' p' g' := heq
      simp at heq'
    · intro _
      exact ⟨h3, h2⟩
    · constructor
      · intro hd
        have hc := hs.closedIff.mp hd
        rw [h1] at hc
        simp at hc
      · intro hd
        have hd' : Phase.waiting = Phase.closed := hd
        simp at hd'
    · intro hc
      have hc' : Phase.waiting = Phase.closed := hc
      simp at hc'
  | addUnit t p g h1 h2 h3 =>
    refine ⟨?_, ?_, hs.partsOk, ?_, ?_, ?_, ?_⟩
    · show s.active + 1 ≤ 16
      omega
    · show s.active + 1 = gotOf (Phase.acquiring t p (g + 1)) + sumParts s.pending
      have hc := hs.conserve
      rw [h1] at hc
      simp only [gotOf] at hc ⊢
      omega
    · intro t' p' g' heq
      have heq' : Phase.acquiring t p (g + 1) = Phase.acquiring t' p' g' := heq
      injection heq' with ht hp hg
      subst ht hp hg
      have ha := hs.acqOk t p g h1
      exact ⟨ha.1, by omega⟩
    · intro hp
      rcases hp with h | h
      · have h' : Phase.acquiring t p (g + 1) = Phase.waiting := h
        simp at h'
      · have h' : Phase.acquiring t p (g + 1) = Phase.closed := h
        simp at h'
    · constructor
      · intro hd
        have hc := hs.closedIff.mp hd
        rw [h1] at hc
        simp at hc
      · intro hd
        have hd' : Phase.acquiring t p (g + 1) = Phase.closed := hd
        simp at hd'
    · intro hc
      have hc' : Phase.acquiring t p (g + 1) = Phase.closed := hc
      simp at hc'
  | dispatch t p h1 =>
    refine ⟨hs.ceiling, ?_, ?_, ?_, ?_, ?_, ?_⟩
    · show s.active = gotOf Phase.looping
        + sumParts (s.pending ++ [{ task := t, parts := p, bodyDone := false }])
      have hc := hs.conserve
      rw [h1] at hc
      simp only [gotOf] at hc
      have h4 : sumParts [{ task := t, parts := p, bodyDone := false }] = p := by
        simp [sumParts]
      simp only [gotOf, sumParts_append]
      omega
    · intro g hg
      have hg2 : g ∈ s.pending ++ [{ task := t, parts := p, bodyDone := false }] := hg
      rcases List.mem_append.mp hg2 with h | h
      · exact hs.partsOk g h
      · have heq : g = { task := t, parts := p, bodyDone := false } := by
          simpa using h
        subst heq
        exact (hs.acqOk t p p h1).1
    · intro t' p' g' heq
      have heq' : Phase.looping = Phase.acquiring t' p' g' := heq
      simp at heq'
    · intro hp
      rcases hp with h | h
      · have h' : Phase.looping = Phase.waiting := h
        simp at h'
      · have h' : Phase.looping = Phase.closed := h
        simp at h'
    · constructor
      · intro hd
        have hc := hs.closedIff.mp hd
        rw [h1] at hc
        simp at hc
      · intro hd
        have hd' : Phase.looping = Phase.closed := hd
        simp at hd'
    · intro hc
      have hc' : Phase.looping = Phase.closed := hc
      simp at hc'
  | unitBody l1 g l2 h1 h2 =>
    refine ⟨hs.ceiling, ?_, ?_, hs.acqOk, hs.drainOk, hs.closedIff, hs.closedDrained⟩
    · show s.active = gotOf s.phase + sumParts (l1 ++ { g with bodyDone := true } :: l2)
      have hc := hs.conserve
      rw [h1] at hc
      simp only [sumParts_append, sumParts_cons] at hc ⊢
      exact hc
    · intro g' hg'
      have hg2 : g' ∈ l1 ++ { g with bodyDone := true } :: l2 := hg'
      rcases List.mem_append.mp hg2 with h | h
      · refine hs.partsOk g' ?_
        rw [h1]
        exact List.mem_append.mpr (Or.inl h)
      · rcases List.mem_cons.mp h with h | h
        · subst h
          show g.parts = partCount g.task
          refine hs.partsOk g ?_
          rw [h1]
          exact List.mem_append.mpr (Or.inr (List.mem_cons_self g l2))
        · refine hs.partsOk g' ?_
          rw [h1]
          exact List.mem_append.mpr (Or.inr (List.mem_cons_of_mem g h))
  | unitRelease l1 g l2 h1 h2 =>
    have hc := hs.conserve
    rw [h1] at hc
    simp only [sumParts_append, sumParts_cons] at hc
    refine ⟨?_, ?_, ?_, hs.acqOk, hs.drainOk, hs.closedIff, ?_⟩
    · show s.active - g.parts ≤ 16
      have := hs.ceiling
      omega
    · show s.active - g.parts = gotOf s.phase + sumParts (l1 ++ l2)
      simp only [sumParts_append]
      omega
    · intro g' hg'
      have hg2 : g' ∈ l1 ++ l2 := hg'
      rcases List.mem_append.mp hg2 with h | h
      · refine hs.partsOk g' ?_
        rw [h1]
        exact List.mem_append.mpr (Or.inl h)
      · refine hs.partsOk g' ?_
        rw [h1]
        exact List.mem_append.mpr (Or.inr (List.mem_cons_of_mem g h))
    · intro hcl
      have hz := hs.closedDrained hcl
      show s.active - g.parts = 0
      omega
  | closeDone h1 h2 =>
    refine ⟨hs.ceiling, ?_, hs.partsOk, ?_, ?_, ?_, ?_⟩
    · show s.active = gotOf Phase.closed + sumParts s.pending
      have hc := hs.conserve
      rw [h1] at hc
      simpa [gotOf] using hc
    · intro t' p' g' heq
      have heq' : Phase.closed = Phase.acquiring t' p' g' := heq
      simp at heq'
    · intro _
      exact hs.drainOk (Or.inl h1)
    · show true = true ↔ Phase.closed = Phase.closed
      simp
    · intro _
      exact h2

theorem inv_reachable {maxMemObject : Int} {o : Oracle} {inputs : List DownloadTask}
    {s : OrchState} (h : Reachable maxMemObject o (initState inputs) s) : Inv s := by
  induction h with
  | refl => exact inv_init inputs
  | step _ hstep ih => exact inv_step ih hstep

/-- A remote store that always answers: the full declared size for buffer
reads, a fixed path for multi-part downloads. -/
def oracleOk : Oracle :=
  { getBuf := fun _ => { len := 32 * 1024, cap := 32 * 1024 }
    memDownload := fun t => Except.ok t.size.toNat
    partsDownload := fun _ _ => Except.ok "tmpfile" }

/-- A remote store whose every read fails. -/
def oracleFail : Oracle :=
  { getBuf := fun _ => { len := 32 * 1024, cap := 32 * 1024 }
    memDownload := fun _ => Except.error "remote read failed"
    partsDownload := fun _ _ => Except.error "remote read failed" }

/-- A remote store that reports writing only 7 bytes, whatever was asked. -/
def oracleShort : Oracle :=
  { getBuf := fun _ => { len := 32 * 1024, cap := 32 * 1024 }
    memDownload := fun _ => Except.ok 7
    partsDownload := fun _ _ => Except.error "unused" }

/-- Claim C7: a descriptor of size 0 yields exactly one success result with
empty storage (no bytes, no temporary file), no remote read of either kind,
no error, and one counter increment. -/
theorem C7_empty_object (maxMemObject : Int) (o : Oracle) (task : DownloadTask)
    (parts : Nat) (h : task.size = 0) :
    transfer maxMemObject o task parts =
      { files := [{ size := 0, filename := task.filename, tempFile := "", bytes := none }]
        errs := []
        memGets := []
        memPuts := []
        memReadCalls := 0
        partsCalls := []
        counterInc := 1 } := by
  unfold transfer
  rw [if_pos h, h]

/-- Witness for C7 at the concrete descriptor `{size := 0, name := "a"}`. -/
theorem C7_empty_object_witness :
    transfer maxMemObjectDefault oracleOk { size := 0, filename := "a" } 1 =
      { files := [{ size := 0, filename := "a", tempFile := "", bytes := none }]
        errs := []
        memGets := []
        memPuts := []
        memReadCalls := 0
        partsCalls := []
        counterInc := 1 } :=
  C7_empty_object maxMemObjectDefault oracleOk { size := 0, filename := "a" } 1 rfl

/-- Claim C9: `putMemory` restores the released block to its full capacity
length and classifies it by that capacity: capacity ≤ 32 KiB always goes to
the ≤ 32 KiB pool and larger capacity always to the large pool, and the
classification is independent of the block's length at release time. -/
theorem C9_pool_classification (b : Buffer) :
    ((putMemory b).1 = PoolClass.pool32 ↔ b.cap ≤ 32 * 1024) ∧
    ((putMemory b).1 = PoolClass.poolLarge ↔ ¬ b.cap ≤ 32 * 1024) ∧
    (putMemory b).2.len = b.cap ∧
    (putMemory b).2.cap = b.cap ∧
    (∀ l : Nat, (putMemory { b with len := l }).1 = (putMemory b).1) := by
  unfold putMemory
  by_cases h : b.cap ≤ 32 * 1024 <;> simp [h]

/-- The smallest descriptor over the default 96 KiB memory threshold. -/
def c5Task : DownloadTask := { size := 96 * 1024 + 1, filename := "mid" }

/-- Claim C5 is false as stated: `c5Task` exceeds the default memory
threshold, yet `Downloader` computes a part count of 1 — not 8 — and calls
`downloadObjectInParts` with 1, since only objects over 8 MiB get 8 parts. -/
theorem C5_counterexample :
    c5Task.size > maxMemObjectDefault * 1024 ∧
    partCount c5Task = 1 ∧
    (transfer maxMemObjectDefault oracleOk c5Task (partCount c5Task)).partsCalls = [1] ∧
    (transfer maxMemObjectDefault oracleOk c5Task (partCount c5Task)).partsCalls ≠ [8] := by
  refine ⟨by decide, by decide, by decide, by decide⟩

/-- Claim C5 (amended): a descriptor whose size exceeds the (nonnegative)
memory threshold is fetched into a temporary file via exactly `partCount`
concurrent range requests — 8 when the size exceeds 8 MiB, 1 otherwise —
and never via the in-memory read. -/
theorem C5_amended (maxMemObject : Int) (o : Oracle) (task : DownloadTask)
    (hm : 0 ≤ maxMemObject) (h : task.size > maxMemObject * 1024) :
    (transfer maxMemObject o task (partCount task)).partsCalls = [partCount task] ∧
    (transfer maxMemObject o task (partCount task)).memReadCalls = 0 ∧
    (transfer maxMemObject o task (partCount task)).memGets = [] ∧
    (8 * 1024 * 1024 < task.size → partCount task = 8) ∧
    (task.size ≤ 8 * 1024 * 1024 → partCount task = 1) ∧
    ((transfer maxMemObject o task (partCount task)).files = [] ∨
      ∃ p, (transfer maxMemObject o task (partCount task)).files =
        [{ size := task.size, filename := task.filename, tempFile := p, bytes := none }]) := by
  have h0 : ¬ task.size = 0 := by omega
  have h1 : ¬ task.size ≤ maxMemObject * 1024 := by omega
  have hcase : ∀ q : Prop, (8 * 1024 * 1024 < task.size → q) → (task.size ≤ 8 * 1024 * 1024 → q) → q := by
    intro q hbig hsmall
    by_cases hb : 8 * 1024 * 1024 < task.size
    · exact hbig hb
    · exact hsmall (by omega)
  unfold transfer
  rw [if_neg h0, if_neg h1]
  cases hp : o.partsDownload task (partCount task) with
  | error e =>
    refine ⟨rfl, rfl, rfl, ?_, ?_, Or.inl rfl⟩
    · intro hgt
      unfold partCount
      rw [if_pos hgt]
    · intro hle
      unfold partCount
      rw [if_neg (by omega)]
  | ok p =>
    refine ⟨rfl, rfl, rfl, ?_, ?_, Or.inr ⟨p, rfl⟩⟩
    · intro hgt
      unfold partCount
      rw [if_pos hgt]
    · intro hle
      unfold partCount
      rw [if_neg (by omega)]

/-- Witness for the amended C5, at a 9 MiB object against the default
threshold. -/
theorem C5_amended_witness :
    (transfer maxMemObjectDefault oracleOk { size := 9 * 1024 * 1024, filename := "big" }
        (partCount { size := 9 * 1024 * 1024, filename := "big" })).partsCalls =
      [partCount { size := 9 * 1024 * 1024, filename := "big" }] ∧
    (transfer maxMemObjectDefault oracleOk { size := 9 * 1024 * 1024, filename := "big" }
        (partCount { size := 9 * 1024 * 1024, filename := "big" })).memReadCalls = 0 ∧
    (transfer maxMemObjectDefault oracleOk { size := 9 * 1024 * 1024, filename := "big" }
        (partCount { size := 9 * 1024 * 1024, filename := "big" })).memGets = [] ∧
    (8 * 1024 * 1024 < (9 * 1024 * 1024 : Int) →
      partCount { size := 9 * 1024 * 1024, filename := "big" } = 8) ∧
    ((9 * 1024 * 1024 : Int) ≤ 8 * 1024 * 1024 →
      partCount { size := 9 * 1024 * 1024, filename := "big" } = 1) ∧
    ((transfer maxMemObjectDefault oracleOk { size := 9 * 1024 * 1024, filename := "big" }
        (partCount { size := 9 * 1024 * 1024, filename := "big" })).files = [] ∨
      ∃ p, (transfer maxMemObjectDefault oracleOk { size := 9 * 1024 * 1024, filename := "big" }
        (partCount { size := 9 * 1024 * 1024, filename := "big" })).files =
        [{ size := 9 * 1024 * 1024, filename := "big", tempFile := p, bytes := none }]) :=
  C5_amended maxMemObjectDefault oracleOk { size := 9 * 1024 * 1024, filename := "big" }
    (by decide) (by decide)

/-- Claim C1: every transfer resolves to exactly one outcome — exactly one
WorkFile on the result stream or exactly one ErrorEvent on the error
stream, never both and never neither; moreover any system step that emits
an error leaves the orchestrator's control state (phase, inputs, input
closure, result-stream closure) untouched and removes no in-flight
goroutine, so one object's failure aborts neither the orchestrator nor
other transfers. -/
theorem C1_exactly_one_outcome (maxMemObject : Int) (o : Oracle)
    (task : DownloadTask) (parts : Nat) :
    (((transfer maxMemObject o task parts).files.length = 1 ∧
      (transfer maxMemObject o task parts).errs.length = 0) ∨
     ((transfer maxMemObject o task parts).files.length = 0 ∧
      (transfer maxMemObject o task parts).errs.length = 1)) ∧
    (∀ s s' : OrchState, Step maxMemObject o s s' → s'.errs ≠ s.errs →
      s'.phase = s.phase ∧ s'.inputs = s.inputs ∧ s'.inputClosed = s.inputClosed ∧
      s'.doneClosed = s.doneClosed ∧ s'.pending.length = s.pending.length) := by
  constructor
  · by_cases h0 : task.size = 0
    · left
      simp [transfer, h0]
    · by_cases h1 : task.size ≤ maxMemObject * 1024
      · cases hm : o.memDownload task with
        | error e =>
          right
          simp [transfer, h0, h1, hm]
        | ok n =>
          by_cases h2 : (n : Int) ≠ task.size
          · right
            simp [transfer, h0, h1, hm, h2]
          · left
            simp [transfer, h0, h1, hm, h2]
      · cases hp : o.partsDownload task parts with
        | error e =>
          right
          simp [transfer, h0, h1, hp]
        | ok p =>
          left
          simp [transfer, h0, h1, hp]
  · intro s s' hstep hne
    cases hstep with
    | produce t h => exact absurd rfl hne
    | closeInput h => exact absurd rfl hne
    | cancel h => exact absurd rfl hne
    | selectCancel h1 h2 => exact absurd rfl hne
    | selectTask t rest h1 h2 => exact absurd rfl hne
    | selectClosed h1 h2 h3 => exact absurd rfl hne
    | addUnit t p g h1 h2 h3 => exact absurd rfl hne
    | dispatch t p h1 => exact absurd rfl hne
    | unitRelease l1 g l2 h1 h2 => exact absurd rfl hne
    | closeDone h1 h2 => exact absurd rfl hne
    | unitBody l1 g l2 h1 h2 =>
      refine ⟨rfl, rfl, rfl, rfl, ?_⟩
      show (l1 ++ { g with bodyDone := true } :: l2).length = s.pending.length
      rw [h1]
      simp

/-- A dispatched goroutine for a 500-byte object whose read will fail. -/
def c1g : Goroutine :=
  { task := { size := 500, filename := "b" }, parts := 1, bodyDone := false }

/-- A state of the orchestrator with `c1g` in flight. -/
def c1s : OrchState :=
  { phase := Phase.looping
    inputs := []
    inputClosed := false
    ctxDone := false
    active := 1
    pending := [c1g]
    doneClosed := false
    sent := []
    errs := []
    counter := 0 }

/-- The state after `c1g`'s body runs against the failing store. -/
def c1s' : OrchState :=
  { c1s with
    pending := [] ++ { c1g with bodyDone := true } :: []
    sent := c1s.sent ++ (transfer maxMemObjectDefault oracleFail c1g.task c1g.parts).files
    errs := c1s.errs ++ (transfer maxMemObjectDefault oracleFail c1g.task c1g.parts).errs
    counter := c1s.counter +
      (transfer maxMemObjectDefault oracleFail c1g.task c1g.parts).counterInc }

/-- Witness for C1: a 500-byte object against the failing store yields the
one-outcome disjunction, and the concrete error-emitting body step from
`c1s` leaves the orchestrator's control state intact. -/
theorem C1_exactly_one_outcome_witness :
    (((transfer maxMemObjectDefault oracleFail { size := 500, filename := "b" } 1).files.length = 1 ∧
      (transfer maxMemObjectDefault oracleFail { size := 500, filename := "b" } 1).errs.length = 0) ∨
     ((transfer maxMemObjectDefault oracleFail { size := 500, filename := "b" } 1).files.length = 0 ∧
      (transfer maxMemObjectDefault oracleFail { size := 500, filename := "b" } 1).errs.length = 1)) ∧
    (c1s'.phase = c1s.phase ∧ c1s'.inputs = c1s.inputs ∧ c1s'.inputClosed = c1s.inputClosed ∧
      c1s'.doneClosed = c1s.doneClosed ∧ c1s'.pending.length = c1s.pending.length) :=
  ⟨(C1_exactly_one_outcome maxMemObjectDefault oracleFail { size := 500, filename := "b" } 1).1,
   (C1_exactly_one_outcome maxMemObjectDefault oracleFail { size := 500, filename := "b" } 1).2
     c1s c1s' (Step.unitBody c1s [] c1g [] rfl rfl) (by decide)⟩

/-- Claim C8: on the in-memory path a short write (bytes written ≠ declared
size) is one failure carrying the declared size and name, with no success,
no counter increment, and the acquired buffer returned through `putMemory`
before the goroutine returns — the very shape a transport error produces,
as the second conjunct states for an arbitrary failing store. -/
theorem C8_short_write (maxMemObject : Int) (o : Oracle) (task : DownloadTask)
    (parts : Nat) (n : Nat)
    (h0 : ¬ task.size = 0) (h1 : task.size ≤ maxMemObject * 1024)
    (hok : o.memDownload task = Except.ok n) (hne : (n : Int) ≠ task.size) :
    ((transfer maxMemObject o task parts).files = [] ∧
     (transfer maxMemObject o task parts).errs.length = 1 ∧
     (∀ e ∈ (transfer maxMemObject o task parts).errs,
        e.size = task.size ∧ e.filename = task.filename) ∧
     (transfer maxMemObject o task parts).memPuts = [putMemory (o.getBuf task)] ∧
     (transfer maxMemObject o task parts).counterInc = 0) ∧
    (∀ o' : Oracle, ∀ em : String, o'.memDownload task = Except.error em →
      (transfer maxMemObject o' task parts).files = [] ∧
      (transfer maxMemObject o' task parts).errs.length = 1 ∧
      (∀ e ∈ (transfer maxMemObject o' task parts).errs,
        e.size = task.size ∧ e.filename = task.filename) ∧
      (transfer maxMemObject o' task parts).memPuts = [putMemory (o'.getBuf task)] ∧
      (transfer maxMemObject o' task parts).counterInc = 0) := by
  constructor
  · have ht : transfer maxMemObject o task parts =
        { files := []
          errs := [{ size := task.size, filename := task.filename
                     err := "Short write for object " ++ task.filename }]
          memGets := [if task.size ≤ 32 * 1024 then PoolClass.pool32 else PoolClass.poolLarge]
          memPuts := [putMemory (o.getBuf task)]
          memReadCalls := 1
          partsCalls := []
          counterInc := 0 } := by
      unfold transfer
      rw [if_neg h0, if_pos h1, hok]
      dsimp only
      rw [if_pos hne]
    rw [ht]
    refine ⟨rfl, rfl, ?_, rfl, rfl⟩
    intro e he
    have he2 : e = { size := task.size, filename := task.filename
                     err := "Short write for object " ++ task.filename } := by
      simpa using he
    subst he2
    exact ⟨rfl, rfl⟩
  · intro o' em herr
    have ht : transfer maxMemObject o' task parts =
        { files := []
          errs := [{ size := task.size, filename := task.filename
                     err := "Error downloading object " ++ task.filename ++ " to memory: " ++ em }]
          memGets := [if task.size ≤ 32 * 1024 then PoolClass.pool32 else PoolClass.poolLarge]
          memPuts := [putMemory (o'.getBuf task)]
          memReadCalls := 1
          partsCalls := []
          counterInc := 0 } := by
      unfold transfer
      rw [if_neg h0, if_pos h1, herr]
    rw [ht]
    refine ⟨rfl, rfl, ?_, rfl, rfl⟩
    intro e he
    have he2 : e = { size := task.size, filename := task.filename
                     err := "Error downloading object " ++ task.filename ++ " to memory: " ++ em } := by
      simpa using he
    subst he2
    exact ⟨rfl, rfl⟩

/-- Witness for C8 at a 500-byte object: the store reports 7 bytes written
(short write), and the transport-error conjunct is instanced with the
always-failing store. -/
theorem C8_short_write_witness :
    ((transfer maxMemObjectDefault oracleShort { size := 500, filename := "b" } 1).files = [] ∧
     (transfer maxMemObjectDefault oracleShort { size := 500, filename := "b" } 1).errs.length = 1 ∧
     (∀ e ∈ (transfer maxMemObjectDefault oracleShort { size := 500, filename := "b" } 1).errs,
        e.size = ({ size := 500, filename := "b" } : DownloadTask).size ∧
        e.filename = ({ size := 500, filename := "b" } : DownloadTask).filename) ∧
     (transfer maxMemObjectDefault oracleShort { size := 500, filename := "b" } 1).memPuts =
       [putMemory (oracleShort.getBuf { size := 500, filename := "b" })] ∧
     (transfer maxMemObjectDefault oracleShort { size := 500, filename := "b" } 1).counterInc = 0) ∧
    ((transfer maxMemObjectDefault oracleFail { size := 500, filename := "b" } 1).files = [] ∧
     (transfer maxMemObjectDefault oracleFail { size := 500, filename := "b" } 1).errs.length = 1 ∧
     (∀ e ∈ (transfer maxMemObjectDefault oracleFail { size := 500, filename := "b" } 1).errs,
        e.size = ({ size := 500, filename := "b" } : DownloadTask).size ∧
        e.filename = ({ size := 500, filename := "b" } : DownloadTask).filename) ∧
     (transfer maxMemObjectDefault oracleFail { size := 500, filename := "b" } 1).memPuts =
       [putMemory (oracleFail.getBuf { size := 500, filename := "b" })] ∧
     (transfer maxMemObjectDefault oracleFail { size := 500, filename := "b" } 1).counterInc = 0) :=
  ⟨(C8_short_write maxMemObjectDefault oracleShort { size := 500, filename := "b" } 1 7
      (by decide) (by decide) rfl (by decide)).1,
   (C8_short_write maxMemObjectDefault oracleShort { size := 500, filename := "b" } 1 7
      (by decide) (by decide) rfl (by decide)).2 oracleFail "remote read failed" rfl⟩

/-- Claim C2: in every reachable state the number of active transfer units
(1 per small object, 8 per large one) never exceeds the ceiling of 16, and
the semaphore count exactly equals the units held by the blocked `Add` loop
plus those of every dispatched-but-unreleased goroutine — so each reserved
unit is released exactly once (the deferred `Done`s run on every exit path)
and no capacity leaks. -/
theorem C2_ceiling (maxMemObject : Int) (o : Oracle) (inputs : List DownloadTask)
    (s : OrchState) (h : Reachable maxMemObject o (initState inputs) s) :
    s.active ≤ 16 ∧ s.active = gotOf s.phase + sumParts s.pending :=
  ⟨(inv_reachable h).ceiling, (inv_reachable h).conserve⟩

/-- A 9 MiB descriptor (large: 8 parts). -/
def t8 : DownloadTask := { size := 9 * 1024 * 1024, filename := "big" }

/-- The state after consuming `t8`, acquiring its 8 units and dispatching. -/
def c2s : OrchState :=
  { phase := Phase.looping
    inputs := []
    inputClosed := false
    ctxDone := false
    active := 8
    pending := [{ task := t8, parts := partCount t8, bodyDone := false }]
    doneClosed := false
    sent := []
    errs := []
    counter := 0 }

/-- Witness for C2 at the concrete reachable state `c2s` holding 8 units. -/
theorem C2_ceiling_witness :
    c2s.active ≤ 16 ∧ c2s.active = gotOf c2s.phase + sumParts c2s.pending := by
  refine C2_ceiling maxMemObjectDefault oracleOk [t8] c2s ?_
  have r0 : Reachable maxMemObjectDefault oracleOk (initState [t8]) (initState [t8]) :=
    Reachable.refl
  have r1 := Reachable.step r0 (Step.selectTask _ t8 [] rfl rfl)
  have r2 := Reachable.step r1 (Step.addUnit _ t8 (partCount t8) 0 rfl (by decide) (by decide))
  have r3 := Reachable.step r2 (Step.addUnit _ t8 (partCount t8) 1 rfl (by decide) (by decide))
  have r4 := Reachable.step r3 (Step.addUnit _ t8 (partCount t8) 2 rfl (by decide) (by decide))
  have r5 := Reachable.step r4 (Step.addUnit _ t8 (partCount t8) 3 rfl (by decide) (by decide))
  have r6 := Reachable.step r5 (Step.addUnit _ t8 (partCount t8) 4 rfl (by decide) (by decide))
  have r7 := Reachable.step r6 (Step.addUnit _ t8 (partCount t8) 5 rfl (by decide) (by decide))
  have r8 := Reachable.step r7 (Step.addUnit _ t8 (partCount t8) 6 rfl (by decide) (by decide))
  have r9 := Reachable.step r8 (Step.addUnit _ t8 (partCount t8) 7 rfl (by decide) (by decide))
  have r10 := Reachable.step r9 (Step.dispatch _ t8 (partCount t8) rfl)
  exact r10

/-- The size-0 descriptor used for the cancellation counterexample. -/
def c3Task : DownloadTask := { size := 0, filename := "a" }

/-- The reachable state in which the context has been cancelled while one
descriptor is waiting on `tasksCh`. -/
def c3s : OrchState := { initState [c3Task] with ctxDone := true }

/-- Claim C3 is violated by the code: the `break` in the `case <-ctx.Done()`
arm leaves only the `select`, not the `for` loop, so from the reachable
cancelled state `c3s` the loop runs again and the `select` may take the
`tasksCh` arm — consuming, reserving for, and dispatching a fresh
descriptor after cancellation has fired. -/
theorem C3_cancel_defect :
    Reachable maxMemObjectDefault oracleOk (initState [c3Task]) c3s ∧
    c3s.ctxDone = true ∧ c3s.inputs = [c3Task] ∧
    Step maxMemObjectDefault oracleOk c3s
      { c3s with phase := Phase.acquiring c3Task (partCount c3Task) 0, inputs := [] } :=
  ⟨Reachable.step Reachable.refl (Step.cancel _ rfl), rfl, rfl,
   Step.selectTask c3s c3Task [] rfl rfl⟩

/-- Claim C4: in every reachable state, once the result stream is closed the
input stream was closed and drained and every dispatched unit has completed
and released its capacity; a step taken from a closed state sends nothing
more and cannot reopen; and the only transition that closes the stream
fires from the drain phase with all units released and the input closed —
so the stream is closed exactly once, strictly after input closure and full
drain, and nothing is sent afterwards. -/
theorem C4_close_safety (maxMemObject : Int) (o : Oracle) (inputs : List DownloadTask)
    (s : OrchState) (h : Reachable maxMemObject o (initState inputs) s) :
    (s.doneClosed = true →
      s.phase = Phase.closed ∧ s.inputClosed = true ∧ s.inputs = [] ∧
      s.pending = [] ∧ s.active = 0) ∧
    (∀ s', Step maxMemObject o s s' → s.doneClosed = true →
      s'.sent = s.sent ∧ s'.errs = s.errs ∧ s'.doneClosed = true) ∧
    (∀ s', Step maxMemObject o s s' → s.doneClosed = false → s'.doneClosed = true →
      s.phase = Phase.waiting ∧ s.active = 0 ∧ s.inputClosed = true ∧ s.inputs = []) := by
  have hInv := inv_reachable h
  have hmain : s.doneClosed = true →
      s.phase = Phase.closed ∧ s.inputClosed = true ∧ s.inputs = [] ∧
      s.pending = [] ∧ s.active = 0 := by
    intro hd
    have hphase := hInv.closedIff.mp hd
    have hact := hInv.closedDrained hphase
    have hdrain := hInv.drainOk (Or.inr hphase)
    have hz : sumParts s.pending = 0 := by
      have hc := hInv.conserve
      rw [hphase] at hc
      simp only [gotOf] at hc
      omega
    exact ⟨hphase, hdrain.1, hdrain.2, pending_eq_nil s.pending hInv.partsOk hz, hact⟩
  refine ⟨hmain, ?_, ?_⟩
  · intro s' hstep hd
    obtain ⟨hphase, hic, hin, hpend, hact⟩ := hmain hd
    cases hstep with
    | produce t h =>
      rw [hic] at h
      simp at h
    | closeInput h =>
      rw [hic] at h
      simp at h
    | cancel h =>
      exact ⟨rfl, rfl, hd⟩
    | selectCancel h1 h2 =>
      exact ⟨rfl, rfl, hd⟩
    | selectTask t rest h1 h2 =>
      rw [hin] at h2
      simp at h2
    | selectClosed h1 h2 h3 =>
      rw [hphase] at h1
      simp at h1
    | addUnit t p g h1 h2 h3 =>
      rw [hphase] at h1
      simp at h1
    | dispatch t p h1 =>
      rw [hphase] at h1
      simp at h1
    | unitBody l1 g l2 h1 h2 =>
      rw [hpend] at h1
      simp at h1
    | unitRelease l1 g l2 h1 h2 =>
      rw [hpend] at h1
      simp at h1
    | closeDone h1 h2 =>
      rw [hphase] at h1
      simp at h1
  · intro s' hstep hd hd'
    cases hstep with
    | produce t h =>
      have hx : s.doneClosed = true := hd'
      rw [hd] at hx
      simp at hx
    | closeInput h =>
      have hx : s.doneClosed = true := hd'
      rw [hd] at hx
      simp at hx
    | cancel h =>
      have hx : s.doneClosed = true := hd'
      rw [hd] at hx
      simp at hx
    | selectCancel h1 h2 =>
      have hx : s.doneClosed = true := hd'
      rw [hd] at hx
      simp at hx
    | selectTask t rest h1 h2 =>
      have hx : s.doneClosed = true := hd'
      rw [hd] at hx
      simp at hx
    | selectClosed h1 h2 h3 =>
      have hx : s.doneClosed = true := hd'
      rw [hd] at hx
      simp at hx
    | addUnit t p g h1 h2 h3 =>
      have hx : s.doneClosed = true := hd'
      rw [hd] at hx
      simp at hx
    | dispatch t p h1 =>
      have hx : s.doneClosed = true := hd'
      rw [hd] at hx
      simp at hx
    | unitBody l1 g l2 h1 h2 =>
      have hx : s.doneClosed = true := hd'
      rw [hd] at hx
      simp at hx
    | unitRelease l1 g l2 h1 h2 =>
      have hx : s.doneClosed = true := hd'
      rw [hd] at hx
      simp at hx
    | closeDone h1 h2 =>
      exact ⟨h1, h2, (hInv.drainOk (Or.inl h1)).1, (hInv.drainOk (Or.inl h1)).2⟩

/-- The drain-phase state of an empty run: input closed and drained, no
units in flight, `swg.Wait()` about to return. -/
def c4wait : OrchState :=
  { phase := Phase.waiting
    inputs := []
    inputClosed := true
    ctxDone := false
    active := 0
    pending := []
    doneClosed := false
    sent := []
    errs := []
    counter := 0 }

/-- The state just after `defer close(doneCh)` ran. -/
def c4closed : OrchState := { c4wait with phase := Phase.closed, doneClosed := true }

/-- Witness for C4 on the concrete empty run: the closed state is fully
drained, a further (cancellation) step sends nothing and keeps the stream
closed, and the closing step itself fired from the drained wait state. -/
theorem C4_close_safety_witness :
    (c4closed.phase = Phase.closed ∧ c4closed.inputClosed = true ∧ c4closed.inputs = [] ∧
      c4closed.pending = [] ∧ c4closed.active = 0) ∧
    ({ c4closed with ctxDone := true }.sent = c4closed.sent ∧
      { c4closed with ctxDone := true }.errs = c4closed.errs ∧
      { c4closed with ctxDone := true }.doneClosed = true) ∧
    (c4wait.phase = Phase.waiting ∧ c4wait.active = 0 ∧ c4wait.inputClosed = true ∧
      c4wait.inputs = []) := by
  have r0 : Reachable maxMemObjectDefault oracleOk (initState []) (initState []) :=
    Reachable.refl
  have r1 := Reachable.step r0 (Step.closeInput _ rfl)
  have rwait : Reachable maxMemObjectDefault oracleOk (initState []) c4wait :=
    Reachable.step r1 (Step.selectClosed _ rfl rfl rfl)
  have rclosed : Reachable maxMemObjectDefault oracleOk (initState []) c4closed :=
    Reachable.step rwait (Step.closeDone _ rfl rfl)
  exact ⟨(C4_close_safety maxMemObjectDefault oracleOk [] c4closed rclosed).1 rfl,
    (C4_close_safety maxMemObjectDefault oracleOk [] c4closed rclosed).2.1
      { c4closed with ctxDone := true } (Step.cancel _ rfl) rfl,
    (C4_close_safety maxMemObjectDefault oracleOk [] c4wait rwait).2.2
      c4closed (Step.closeDone _ rfl rfl) rfl rfl⟩

/-- Claim C6: the part count is exactly 1 for declared size ≤ 8 MiB and
exactly 8 for size > 8 MiB; in every reachable state an in-progress
acquisition is for exactly the task's part count with at most that many
units held so far, every dispatched goroutine holds exactly its part count,
and the only step that dispatches a goroutine fires from a state where all
`partCount` units have been reserved. -/
theorem C6_partCount_reserved (maxMemObject : Int) (o : Oracle)
    (inputs : List DownloadTask) (s : OrchState)
    (h : Reachable maxMemObject o (initState inputs) s) :
    (∀ t : DownloadTask, (t.size ≤ 8 * 1024 * 1024 → partCount t = 1) ∧
      (8 * 1024 * 1024 < t.size → partCount t = 8)) ∧
    (∀ t p g, s.phase = Phase.acquiring t p g → p = partCount t ∧ g ≤ p) ∧
    (∀ g ∈ s.pending, g.parts = partCount g.task) ∧
    (∀ s', Step maxMemObject o s s' → s'.pending.length = s.pending.length + 1 →
      ∃ t, s.phase = Phase.acquiring t (partCount t) (partCount t)) := by
  refine ⟨?_, (inv_reachable h).acqOk, (inv_reachable h).partsOk, ?_⟩
  · intro t
    constructor
    · intro hle
      unfold partCount
      rw [if_neg (by omega)]
    · intro hgt
      unfold partCount
      rw [if_pos hgt]
  · intro s' hstep hlen
    cases hstep with
    | produce t hcl =>
      have hx : s.pending.length = s.pending.length + 1 := hlen
      omega
    | closeInput hcl =>
      have hx : s.pending.length = s.pending.length + 1 := hlen
      omega
    | cancel hcl =>
      have hx : s.pending.length = s.pending.length + 1 := hlen
      omega
    | selectCancel h1 h2 =>
      have hx : s.pending.length = s.pending.length + 1 := hlen
      omega
    | selectTask t rest h1 h2 =>
      have hx : s.pending.length = s.pending.length + 1 := hlen
      omega
    | selectClosed h1 h2 h3 =>
      have hx : s.pending.length = s.pending.length + 1 := hlen
      omega
    | addUnit t p g h1 h2 h3 =>
      have hx : s.pending.length = s.pending.length + 1 := hlen
      omega
    | closeDone h1 h2 =>
      have hx : s.pending.length = s.pending.length + 1 := hlen
      omega
    | dispatch t p h1 =>
      have hp := ((inv_reachable h).acqOk t p p h1).1
      rw [hp] at h1
      exact ⟨t, h1⟩
    | unitBody l1 g l2 h1 h2 =>
      have hx : (l1 ++ { g with bodyDone := true } :: l2).length = s.pending.length + 1 := hlen
      rw [h1] at hx
      simp at hx
    | unitRelease l1 g l2 h1 h2 =>
      have hx : (l1 ++ l2).length = s.pending.length + 1 := hlen
      rw [h1] at hx
      simp at hx
      omega

/-- The state of the orchestrator holding all 8 units for `t8`, one step
before dispatching its goroutine. -/
def c6s : OrchState :=
  { phase := Phase.acquiring t8 (partCount t8) (partCount t8)
    inputs := []
    inputClosed := false
    ctxDone := false
    active := 8
    pending := []
    doneClosed := false
    sent := []
    errs := []
    counter := 0 }

/-- Witness for C6: the small/large part counts at concrete sizes, the
acquisition invariant at the reachable state `c6s`, and the dispatch step
from `c6s` firing with all `partCount t8` units reserved. -/
theorem C6_partCount_reserved_witness :
    ((({ size := 500, filename := "b" } : DownloadTask).size ≤ 8 * 1024 * 1024 →
       partCount { size := 500, filename := "b" } = 1) ∧
     (8 * 1024 * 1024 < ({ size := 500, filename := "b" } : DownloadTask).size →
       partCount { size := 500, filename := "b" } = 8)) ∧
    (partCount t8 = partCount t8 ∧ partCount t8 ≤ partCount t8) ∧
    (∃ t, c6s.phase = Phase.acquiring t (partCount t) (partCount t)) := by
  have r0 : Reachable maxMemObjectDefault oracleOk (initState [t8]) (initState [t8]) :=
    Reachable.refl
  have r1 := Reachable.step r0 (Step.selectTask _ t8 [] rfl rfl)
  have r2 := Reachable.step r1 (Step.addUnit _ t8 (partCount t8) 0 rfl (by decide) (by decide))
  have r3 := Reachable.step r2 (Step.addUnit _ t8 (partCount t8) 1 rfl (by decide) (by decide))
  have r4 := Reachable.step r3 (Step.addUnit _ t8 (partCount t8) 2 rfl (by decide) (by decide))
  have r5 := Reachable.step r4 (Step.addUnit _ t8 (partCount t8) 3 rfl (by decide) (by decide))
  have r6 := Reachable.step r5 (Step.addUnit _ t8 (partCount t8) 4 rfl (by decide) (by decide))
  have r7 := Reachable.step r6 (Step.addUnit _ t8 (partCount t8) 5 rfl (by decide) (by decide))
  have r8 := Reachable.step r7 (Step.addUnit _ t8 (partCount t8) 6 rfl (by decide) (by decide))
  have r9 : Reachable maxMemObjectDefault oracleOk (initState [t8]) c6s :=
    Reachable.step r8 (Step.addUnit _ t8 (partCount t8) 7 rfl (by decide) (by decide))
  have H := C6_partCount_reserved maxMemObjectDefault oracleOk [t8] c6s r9
  exact ⟨H.1 { size := 500, filename := "b" },
    H.2.1 t8 (partCount t8) (partCount t8) rfl,
    H.2.2.2 _ (Step.dispatch c6s t8 (partCount t8) rfl) rfl⟩

/-- The size-0 descriptor of the C10 scenario. -/
def c10task : DownloadTask := { size := 0, filename := "z" }

/-- The orchestrator blocked in `swg.Add()` for the size-0 task while the
limiter is saturated at 16 units. -/
def c10blocked : OrchState :=
  { phase := Phase.acquiring c10task (partCount c10task) 0
    inputs := []
    inputClosed := false
    ctxDone := false
    active := 16
    pending := []
    doneClosed := false
    sent := []
    errs := []
    counter := 0 }

/-- The size-0 goroutine after its body (send and counter increment) ran,
holding its unit until the deferred `swg.Done()`. -/
def c10relg : Goroutine := { task := c10task, parts := 1, bodyDone := true }

/-- A state in which `c10relg` still holds its unit. -/
def c10rel : OrchState :=
  { phase := Phase.looping
    inputs := []
    inputClosed := false
    ctxDone := false
    active := 1
    pending := [c10relg]
    doneClosed := false
    sent := [{ size := 0, filename := "z", tempFile := "", bytes := none }]
    errs := []
    counter := 1 }

/-- Claim C10: a size-0 descriptor has part count 1, so one limiter unit is
reserved before its goroutine is dispatched even though the transfer makes
no remote call; while the limiter is saturated at 16 units the orchestrator
stays blocked in the acquisition phase (so a size-0 object can wait behind
a full limiter); a unit leaves the in-flight set only by the release step,
which requires the body — the result send and the one success-counter
increment — to have already run. -/
theorem C10_zero_size_reserves (maxMemObject : Int) (o : Oracle) (name : String) :
    partCount { size := 0, filename := name } = 1 ∧
    (transfer maxMemObject o { size := 0, filename := name } 1).counterInc = 1 ∧
    (transfer maxMemObject o { size := 0, filename := name } 1).memReadCalls = 0 ∧
    (transfer maxMemObject o { size := 0, filename := name } 1).partsCalls = [] ∧
    (transfer maxMemObject o { size := 0, filename := name } 1).files.length = 1 ∧
    (∀ s s' : OrchState, ∀ tt pp gg, Step maxMemObject o s s' →
      s.phase = Phase.acquiring tt pp gg → gg < pp → 16 ≤ s.active → s'.phase = s.phase) ∧
    (∀ s s' : OrchState, Step maxMemObject o s s' →
      s'.pending.length < s.pending.length →
      ∃ l1 gg l2, s.pending = l1 ++ gg :: l2 ∧ gg.bodyDone = true ∧
        s'.active = s.active - gg.parts) := by
  refine ⟨rfl, rfl, rfl, rfl, rfl, ?_, ?_⟩
  · intro s s' tt pp gg hstep hacq hlt hsat
    cases hstep with
    | produce t hcl => rfl
    | closeInput hcl => rfl
    | cancel hcl => rfl
    | selectCancel h1 h2 => rfl
    | selectTask t rest h1 h2 =>
      rw [hacq] at h1
      simp at h1
    | selectClosed h1 h2 h3 =>
      rw [hacq] at h1
      simp at h1
    | addUnit t p g h1 h2 h3 => omega
    | dispatch t p h1 =>
      rw [hacq] at h1
      injection h1 with ha hb hc
      omega
    | unitBody l1 g l2 h1 h2 => rfl
    | unitRelease l1 g l2 h1 h2 => rfl
    | closeDone h1 h2 =>
      rw [hacq] at h1
      simp at h1
  · intro s s' hstep hlen
    cases hstep with
    | produce t hcl =>
      have hx : s.pending.length < s.pending.length := hlen
      omega
    | closeInput hcl =>
      have hx : s.pending.length < s.pending.length := hlen
      omega
    | cancel hcl =>
      have hx : s.pending.length < s.pending.length := hlen
      omega
    | selectCancel h1 h2 =>
      have hx : s.pending.length < s.pending.length := hlen
      omega
    | selectTask t rest h1 h2 =>
      have hx : s.pending.length < s.pending.length := hlen
      omega
    | selectClosed h1 h2 h3 =>
      have hx : s.pending.length < s.pending.length := hlen
      omega
    | addUnit t p g h1 h2 h3 =>
      have hx : s.pending.length < s.pending.length := hlen
      omega
    | closeDone h1 h2 =>
      have hx : s.pending.length < s.pending.length := hlen
      omega
    | dispatch t p h1 =>
      have hx : (s.pending ++ [({ task := t, parts := p, bodyDone := false } : Goroutine)]).length <
          s.pending.length := hlen
      simp at hx
    | unitBody l1 g l2 h1 h2 =>
      have hx : (l1 ++ { g with bodyDone := true } :: l2).length < s.pending.length := hlen
      rw [h1] at hx
      simp at hx
    | unitRelease l1 g l2 h1 h2 =>
      exact ⟨l1, g, l2, h1, h2, rfl⟩

/-- Witness for C10: the concrete blocked state `c10blocked` stays blocked
under a (cancellation) step, and the concrete release step from `c10rel`
fires only with the body already done. -/
theorem C10_zero_size_reserves_witness :
    partCount c10task = 1 ∧
    (transfer maxMemObjectDefault oracleOk c10task 1).counterInc = 1 ∧
    (transfer maxMemObjectDefault oracleOk c10task 1).memReadCalls = 0 ∧
    (transfer maxMemObjectDefault oracleOk c10task 1).partsCalls = [] ∧
    (transfer maxMemObjectDefault oracleOk c10task 1).files.length = 1 ∧
    ({ c10blocked with ctxDone := true }.phase = c10blocked.phase) ∧
    (∃ l1 gg l2, c10rel.pending = l1 ++ gg :: l2 ∧ gg.bodyDone = true ∧
      ({ c10rel with pending := [] ++ [], active := c10rel.active - c10relg.parts }).active =
        c10rel.active - gg.parts) := by
  have H := C10_zero_size_reserves maxMemObjectDefault oracleOk "z"
  exact ⟨H.1, H.2.1, H.2.2.1, H.2.2.2.1, H.2.2.2.2.1,
    H.2.2.2.2.2.1 c10blocked { c10blocked with ctxDone := true }
      c10task (partCount c10task) 0 (Step.cancel c10blocked rfl) rfl (by decide) (by decide),
    H.2.2.2.2.2.2 c10rel
      { c10rel with pending := [] ++ [], active := c10rel.active - c10relg.parts }
      (Step.unitRelease c10rel [] c10relg [] rfl rfl) (by decide)⟩

end S3Archive
